import Mathlib

/-!
Shallow embedding of the EventHorizon registration core: the Mongo-branch
storage operations of src/services/storageService.ts acting on an abstract
document store, the local-storage branch of deleteRegistration, the
registration flow of handleRegister in src/App.tsx, the error-policy
skeleton of the exposed storage functions, and the document proxy
src/api/action/[action].js.  Timestamps (ISO-8601 strings in the source,
compared chronologically) are modelled as naturals.
-/

namespace EventHorizon

/-- Status enum RegistrationStatus from src/types.ts. -/
inductive RegistrationStatus
  | PENDING
  | APPROVED
  | REJECTED
  | WAITLISTED
deriving DecidableEq, Repr

open RegistrationStatus

/-- CustomQuestion from src/types.ts. -/
structure CustomQuestion where
  id : String
  question : String
  qtype : String
  required : Bool
  options : List String
deriving DecidableEq, Repr

/-- Event from src/types.ts.  maxTeamSize and participationMode are the
team-mode fields read by handleRegister in src/App.tsx (spec section 3);
optional source fields are Option-valued. -/
structure Event where
  id : String
  title : String
  description : String
  date : Nat
  endDate : Nat
  location : String
  locationType : Option String
  capacity : Nat
  imageUrl : String
  organizerId : String
  isRegistrationOpen : Option Bool
  customQuestions : List CustomQuestion
  maxTeamSize : Option Nat
  participationMode : Option String
deriving DecidableEq, Repr

/-- Registration from src/types.ts plus the team fields handleRegister
writes on finalRegData (teamId, teamName, isTeamLeader, participationType). -/
structure Registration where
  id : String
  eventId : String
  participantId : String
  participantName : String
  participantEmail : String
  status : RegistrationStatus
  attended : Bool
  attendanceTime : Option Nat
  registeredAt : Nat
  answers : List (String × String)
  teamId : Option String
  teamName : Option String
  isTeamLeader : Option Bool
  participationType : Option String
deriving DecidableEq, Repr

/-- The argument type of addRegistration: Omit of Registration by id
(all fields of Registration except id; it still carries a status field,
which the function overwrites). -/
structure RegInput where
  eventId : String
  participantId : String
  participantName : String
  participantEmail : String
  status : RegistrationStatus
  attended : Bool
  attendanceTime : Option Nat
  registeredAt : Nat
  answers : List (String × String)
  teamId : Option String
  teamName : Option String
  isTeamLeader : Option Bool
  participationType : Option String
deriving DecidableEq, Repr

/-- The spread in addRegistration: the object built by
braces-spread of reg with id := newId and status := st. -/
def RegInput.toReg (r : RegInput) (newId : String) (st : RegistrationStatus) : Registration :=
  { id := newId
    eventId := r.eventId
    participantId := r.participantId
    participantName := r.participantName
    participantEmail := r.participantEmail
    status := st
    attended := r.attended
    attendanceTime := r.attendanceTime
    registeredAt := r.registeredAt
    answers := r.answers
    teamId := r.teamId
    teamName := r.teamName
    isTeamLeader := r.isTeamLeader
    participationType := r.participationType }

/-- Team member record from spec section 3. -/
structure TeamMember where
  userId : String
  userName : String
  email : String
deriving DecidableEq, Repr

/-- Team record from spec section 3. -/
structure Team where
  id : String
  name : String
  eventId : String
  leaderId : String
  members : List TeamMember
  inviteCode : String
  createdAt : Nat
deriving DecidableEq, Repr

/-- User from src/types.ts (password omitted: never read by the embedded flow). -/
structure User where
  id : String
  name : String
  email : String
  role : String
deriving DecidableEq, Repr

/-- The document store the Mongo proxy serves: one list per collection
used by the registration core. -/
structure DB where
  events : List Event
  registrations : List Registration
  teams : List Team
deriving DecidableEq, Repr

/-! ### Mongo request primitives as list operations

mongoRequest deleteOne removes the first document matching the filter and
reports deletedCount; updateOne with a set-update rewrites the first match;
find with sort on registeredAt ascending returns the list sorted by that
field. -/

/-- deleteOne on registrations with filter on id: remove the first match,
return the new list and deletedCount. -/
def deleteOneReg : List Registration → String → List Registration × Nat
  | [], _ => ([], 0)
  | r :: rs, i =>
    if r.id = i then (rs, 1)
    else
      let rest := deleteOneReg rs i
      (r :: rest.1, rest.2)

/-- updateOne on registrations with filter on id and a set-update of
status: rewrite the first match. -/
def setStatusOne : List Registration → String → RegistrationStatus → List Registration
  | [], _, _ => []
  | r :: rs, i, st =>
    if r.id = i then { r with status := st } :: rs
    else r :: setStatusOne rs i st

/-- updateOne on registrations with filter on id and a set-update of
attended and attendanceTime: rewrite the first match. -/
def setAttendedOne : List Registration → String → Nat → List Registration
  | [], _, _ => []
  | r :: rs, i, t =>
    if r.id = i then { r with attended := true, attendanceTime := some t } :: rs
    else r :: setAttendedOne rs i t

/-- Ascending order on registeredAt, the sort key the Mongo branch of
deleteRegistration requests (sort registeredAt ascending). -/
def regTimeLE (a b : Registration) : Prop :=
  a.registeredAt ≤ b.registeredAt

instance : DecidableRel regTimeLE := fun a b => Nat.decLe a.registeredAt b.registeredAt

instance : IsTotal Registration regTimeLE :=
  ⟨fun a b => Nat.le_total a.registeredAt b.registeredAt⟩

instance : IsTrans Registration regTimeLE :=
  ⟨fun _ _ _ h h' => Nat.le_trans h h'⟩

/-- The waitlist query of deleteRegistration: the matching documents
sorted by registeredAt ascending. -/
def sortByTime (l : List Registration) : List Registration :=
  List.insertionSort regTimeLE l

/-! ### Storage Service, Mongo branch (src/services/storageService.ts)

Each function is the Mongo branch (USE_MONGO is hard-coded true) with its
backend calls replaced by the list operations above; the fresh id from
crypto.randomUUID and the timestamp from new Date are parameters. -/

/-- addRegistration, Mongo branch (storageService.ts lines 242-266):
find the event, count the registrations of the event whose status is not
REJECTED, waitlist when that count reaches capacity, insert the new
document.  A missing event throws inside the try, is caught, and yields
null with no write. -/
def addRegistration (db : DB) (newId : String) (reg : RegInput) :
    DB × Option Registration :=
  match db.events.find? (fun e => e.id = reg.eventId) with
  | none => (db, none)
  | some event =>
    let count :=
      (db.registrations.filter
        (fun r => r.eventId = reg.eventId ∧ ¬ r.status = REJECTED)).length
    let isFull := event.capacity ≤ count
    let st := if isFull then WAITLISTED else PENDING
    let newReg := reg.toReg newId st
    ({ db with registrations := db.registrations ++ [newReg] }, some newReg)

/-- deleteRegistration, Mongo branch (storageService.ts lines 318-349):
look the registration up to learn its eventId, deleteOne it, and when a
document was deleted promote the head of the waitlist of that event
(WAITLISTED documents sorted by registeredAt ascending, limit 1) to
PENDING. -/
def deleteRegistration (db : DB) (i : String) : DB × Bool :=
  let eventIdToCleanup := (db.registrations.find? (fun r => r.id = i)).map (·.eventId)
  let del := deleteOneReg db.registrations i
  match eventIdToCleanup with
  | some eid =>
    if 0 < del.2 then
      match sortByTime (del.1.filter (fun r => r.eventId = eid ∧ r.status = WAITLISTED)) with
      | [] => ({ db with registrations := del.1 }, true)
      | nextInLine :: _ =>
        ({ db with registrations := setStatusOne del.1 nextInLine.id PENDING }, true)
    else ({ db with registrations := del.1 }, false)
  | none => ({ db with registrations := del.1 }, decide (0 < del.2))

/-- updateRegistrationStatus, Mongo branch (storageService.ts lines
400-412): unconditional updateOne of status on the first match. -/
def updateRegistrationStatus (db : DB) (i : String) (st : RegistrationStatus) : DB :=
  { db with registrations := setStatusOne db.registrations i st }

/-- markAttendance, Mongo branch (storageService.ts lines 432-448): findOne
the registration; when it exists with status APPROVED, set attended and
attendanceTime and return true, otherwise return false.  There is no guard
on attended: an already attended APPROVED registration is stamped again. -/
def markAttendance (db : DB) (i : String) (timestamp : Nat) : DB × Bool :=
  match db.registrations.find? (fun r => r.id = i) with
  | some reg =>
    if reg.status = APPROVED then
      ({ db with registrations := setAttendedOne db.registrations i timestamp }, true)
    else (db, false)
  | none => (db, false)

/-- The local-storage promotion loop of deleteRegistration (storageService.ts
lines 389-394): findIndex of the first remaining WAITLISTED registration of
the event in stored order, set it to PENDING. -/
def promoteFirstWaitlisted : List Registration → String → List Registration
  | [], _ => []
  | r :: rs, eid =>
    if r.eventId = eid ∧ r.status = WAITLISTED then
      { r with status := PENDING } :: rs
    else r :: promoteFirstWaitlisted rs eid

/-- deleteRegistration, local-storage branch (storageService.ts lines
383-398): filter out every registration with the id, then promote the first
WAITLISTED registration of the same event in stored order; always returns
true. -/
def deleteRegistrationLocal (db : DB) (i : String) : DB × Bool :=
  let regToDelete := db.registrations.find? (fun r => r.id = i)
  let filtered := db.registrations.filter (fun r => ¬ r.id = i)
  match regToDelete with
  | some r0 =>
    ({ db with registrations := promoteFirstWaitlisted filtered r0.eventId }, true)
  | none => ({ db with registrations := filtered }, true)

/-! ### Team operations

The team functions are imported by src/App.tsx from the storage service but
their bodies are not under src/, so they are modelled from the spec. -/

/-- Modelled from the spec: getTeamByInviteCode, missing from src/
(spec section 4.3: look up by code, a linear scan over all teams in the
Mongo path). -/
def getTeamByInviteCode (db : DB) (code : String) : Option Team :=
  db.teams.find? (fun t => t.inviteCode = code)

/-- Modelled from the spec: joinTeam, missing from src/ (spec sections 3
and 4.3: the Team document is mutated by joinTeam appending the joining
member; the eventId and size checks live in the caller, App.tsx). -/
def joinTeam (db : DB) (teamId : String) (m : TeamMember) : DB :=
  { db with
    teams := db.teams.map
      (fun t => if t.id = teamId then { t with members := t.members ++ [m] } else t) }

/-! ### The registration flow handleRegister (src/App.tsx lines 822-971)

The flow re-fetches the event, guards on registration being open, on the
event date, on an existing registration with the same eventId and
participantEmail, and on required custom questions; it then computes an
initial status (later overwritten by addRegistration), runs the chosen team
branch, and calls addRegistration.  The create-team branch is not modelled;
the parameter below offers the individual branch and the join-by-invite-code
branch, the ones the claims concern. -/

/-- The team choice the registration modal passes to handleRegister. -/
inductive TeamChoice
  | individual
  | joinByCode (code : String)
deriving DecidableEq, Repr

/-- Answer lookup registrationAnswers of a question id. -/
def lookupAnswer (answers : List (String × String)) (qid : String) : Option String :=
  (answers.find? (fun p => p.1 = qid)).map (·.2)

/-- The test on one answer in the required-question guard: the JS guard
rejects a missing answer (undefined or empty string, both falsy) and a
whitespace-only answer (the trimmed string is empty exactly when every
character is whitespace, which is how trim-is-empty is modelled here). -/
def answerBlank : Option String → Bool
  | none => true
  | some s => s.toList.all Char.isWhitespace

/-- The required-question guard (App.tsx lines 863-873): some required
custom question has a blank answer. -/
def requiredAnswerMissing (ev : Event) (answers : List (String × String)) : Bool :=
  (ev.customQuestions.find?
    (fun q => q.required ∧ answerBlank (lookupAnswer answers q.id) = true)).isSome

/-- JS or-default on an optional numeric field: maxTeamSize or 99; a
missing field and a zero field are both falsy and give the default. -/
def jsOrNat : Option Nat → Nat → Nat
  | none, d => d
  | some n, d => if n = 0 then d else n

/-- The finalRegData object handleRegister builds (App.tsx lines 883-892)
before the team branch fills the team fields. -/
def mkRegData (user : User) (eventId : String) (initialStatus : RegistrationStatus)
    (regTime : Nat) (answers : List (String × String)) : RegInput :=
  { eventId := eventId
    participantId := user.id
    participantName := user.name
    participantEmail := user.email
    status := initialStatus
    attended := false
    attendanceTime := none
    registeredAt := regTime
    answers := answers
    teamId := none
    teamName := none
    isTeamLeader := none
    participationType := none }

/-- handleRegister (src/App.tsx lines 822-971) on the individual and
join-by-invite-code branches, with the modal event and the re-fetched event
read from the same store.  Returns the updated store and the created
registration; every guard failure returns the store unchanged and none. -/
def handleRegister (db : DB) (user : User) (eventId : String) (now regTime : Nat)
    (answers : List (String × String)) (choice : TeamChoice) (newId : String) :
    DB × Option Registration :=
  match db.events.find? (fun e => e.id = eventId) with
  | none => (db, none)
  | some ev =>
    if ev.isRegistrationOpen = some false then (db, none)
    else if ev.date ≤ now then (db, none)
    else if (db.registrations.find?
        (fun r => r.eventId = eventId ∧ r.participantEmail = user.email)).isSome then
      (db, none)
    else if requiredAnswerMissing ev answers then (db, none)
    else
      let currentRegCount :=
        (db.registrations.filter
          (fun r => r.eventId = eventId ∧ (r.status = APPROVED ∨ r.status = PENDING))).length
      let initialStatus :=
        if ev.capacity ≤ currentRegCount then WAITLISTED else PENDING
      match choice with
      | TeamChoice.individual =>
        let regData := { mkRegData user eventId initialStatus regTime answers with
          participationType := some "individual" }
        addRegistration db newId regData
      | TeamChoice.joinByCode code =>
        if code.toList.all Char.isWhitespace then (db, none)
        else
          match getTeamByInviteCode db code with
          | none => (db, none)
          | some team =>
            if ¬ team.eventId = eventId then (db, none)
            else if jsOrNat ev.maxTeamSize 99 ≤ team.members.length then (db, none)
            else
              let db1 := joinTeam db team.id
                { userId := user.id, userName := user.name, email := user.email }
              let regData := { mkRegData user eventId initialStatus regTime answers with
                teamId := some team.id
                teamName := some team.name
                isTeamLeader := some false
                participationType := some "team" }
              addRegistration db1 newId regData

/-! ### Error policy of the exposed storage functions

Each Mongo branch wraps its backend calls in one try block; MongoError
stands for the exception mongoRequest throws.  For each exposed function the
definition below maps the outcome of its try body to what the function
returns: the catch clause of the source either swallows the error and
returns a zero value, or rethrows it (saveEvent and updateEvent do the
latter).  updateRegistrationStatus and its void-returning peers catch
without returning, falling through to the local-storage code, so they never
propagate either. -/

/-- The exception a failing mongoRequest throws. -/
structure MongoError where
  message : String
deriving DecidableEq, Repr

/-- True on a propagated exception. -/
def throws {α : Type} : Except MongoError α → Bool
  | Except.error _ => true
  | Except.ok _ => false

/-- getEvents (lines 73-82): catch returns the empty list. -/
def getEventsCatch (body : Except MongoError (List Event)) : Except MongoError (List Event) :=
  match body with
  | Except.ok evs => Except.ok evs
  | Except.error _ => Except.ok []

/-- saveEvent (lines 102-111): catch logs and rethrows. -/
def saveEventCatch (body : Except MongoError Event) : Except MongoError (Option Event) :=
  match body with
  | Except.ok ev => Except.ok (some ev)
  | Except.error e => Except.error e

/-- updateEvent (lines 130-142): catch logs and rethrows. -/
def updateEventCatch (body : Except MongoError Bool) : Except MongoError Bool :=
  match body with
  | Except.ok b => Except.ok b
  | Except.error e => Except.error e

/-- deleteEvent (lines 168-187): catch returns false. -/
def deleteEventCatch (body : Except MongoError Unit) : Except MongoError Bool :=
  match body with
  | Except.ok _ => Except.ok true
  | Except.error _ => Except.ok false

/-- getRegistrations (lines 215-223): catch returns the empty list. -/
def getRegistrationsCatch (body : Except MongoError (List Registration)) :
    Except MongoError (List Registration) :=
  match body with
  | Except.ok l => Except.ok l
  | Except.error _ => Except.ok []

/-- addRegistration (lines 242-266): catch returns null. -/
def addRegistrationCatch (body : Except MongoError Registration) :
    Except MongoError (Option Registration) :=
  match body with
  | Except.ok r => Except.ok (some r)
  | Except.error _ => Except.ok none

/-- deleteRegistration (lines 318-349): catch returns false. -/
def deleteRegistrationCatch (body : Except MongoError Bool) : Except MongoError Bool :=
  match body with
  | Except.ok b => Except.ok b
  | Except.error _ => Except.ok false

/-- updateRegistrationStatus (lines 401-412): catch logs without returning,
so the call never propagates (control falls through to the later
branches). -/
def updateRegistrationStatusCatch (body : Except MongoError Unit) : Except MongoError Unit :=
  match body with
  | Except.ok _ => Except.ok ()
  | Except.error _ => Except.ok ()

/-- markAttendance (lines 432-448): catch returns false. -/
def markAttendanceCatch (body : Except MongoError Bool) : Except MongoError Bool :=
  match body with
  | Except.ok b => Except.ok b
  | Except.error _ => Except.ok false

/-! ### The document proxy (src/api/action/[action].js) -/

/-- The six driver actions the proxy dispatches on. -/
inductive ApiAction
  | find
  | findOne
  | insertOne
  | updateOne
  | deleteOne
  | deleteMany
deriving DecidableEq, Repr

/-- The switch scrutinee: which case the action string selects. -/
def parseAction (s : String) : Option ApiAction :=
  if s = "find" then some ApiAction.find
  else if s = "findOne" then some ApiAction.findOne
  else if s = "insertOne" then some ApiAction.insertOne
  else if s = "updateOne" then some ApiAction.updateOne
  else if s = "deleteOne" then some ApiAction.deleteOne
  else if s = "deleteMany" then some ApiAction.deleteMany
  else none

/-- A response body of the proxy: empty (OPTIONS), a JSON object with an
error field, one with error and details fields, or a success payload. -/
inductive RespBody
  | empty
  | jsonError (error : String)
  | jsonErrorDetails (error details : String)
  | jsonOk (payload : String)
deriving DecidableEq, Repr

/-- An HTTP response of the proxy. -/
structure ApiResponse where
  status : Nat
  body : RespBody
deriving DecidableEq, Repr

/-- A request to the proxy: the method, the action path segment, and the
collection field of the body (the other body fields feed the abstract
driver runs below). -/
structure ApiRequest where
  method : String
  action : String
  collection : Option String
deriving DecidableEq, Repr

/-- The proxy handler (src/api/action/[action].js lines 21-92): OPTIONS
short-circuits with 200, other non-POST methods get 405; inside the try,
a missing collection gets 400, then the client connects (a throw lands in
the catch), then the switch runs the selected driver call (a throw lands in
the catch) or falls to the default; the catch answers 500 with error and
details fields.  connect is the outcome of getClient, run the outcome of
the driver call for a dispatched action. -/
def handler (req : ApiRequest) (connect : Except String Unit)
    (run : ApiAction → Except String String) : ApiResponse :=
  if req.method = "OPTIONS" then { status := 200, body := RespBody.empty }
  else if ¬ req.method = "POST" then
    { status := 405, body := RespBody.jsonError "Method Not Allowed" }
  else
    match req.collection with
    | none => { status := 400, body := RespBody.jsonError "Missing collection name" }
    | some _ =>
      match connect with
      | Except.error e =>
        { status := 500, body := RespBody.jsonErrorDetails "Server Error" e }
      | Except.ok _ =>
        match parseAction req.action with
        | none =>
          { status := 400, body := RespBody.jsonError ("Unknown action: " ++ req.action) }
        | some a =>
          match run a with
          | Except.error e =>
            { status := 500, body := RespBody.jsonErrorDetails "Server Error" e }
          | Except.ok payload => { status := 200, body := RespBody.jsonOk payload }

/-! ### Counting and invariant definitions -/

/-- Number of registrations of the event with status APPROVED or PENDING,
the quantity the capacity invariant bounds. -/
def countPA (regs : List Registration) (eid : String) : Nat :=
  (regs.filter (fun r => r.eventId = eid ∧ (r.status = APPROVED ∨ r.status = PENDING))).length

/-- Number of registrations of the event with status other than REJECTED,
the quantity addRegistration actually compares against capacity. -/
def countNonRejected (regs : List Registration) (eid : String) : Nat :=
  (regs.filter (fun r => r.eventId = eid ∧ ¬ r.status = REJECTED)).length

/-- The intended capacity invariant of spec section 3 for every event in
the store. -/
def CapacityInv (db : DB) : Prop :=
  ∀ e ∈ db.events, countPA db.registrations e.id ≤ e.capacity

instance (db : DB) : Decidable (CapacityInv db) :=
  inferInstanceAs (Decidable (∀ e ∈ db.events, countPA db.registrations e.id ≤ e.capacity))

/-- Pairwise-distinct registration ids. -/
def IdsDistinct (l : List Registration) : Prop :=
  l.Pairwise (fun a b => ¬ a.id = b.id)

instance (l : List Registration) : Decidable (IdsDistinct l) :=
  inferInstanceAs (Decidable (l.Pairwise _))

/-- Pairwise-distinct event ids. -/
def EventIdsDistinct (db : DB) : Prop :=
  db.events.Pairwise (fun a b => ¬ a.id = b.id)

instance (db : DB) : Decidable (EventIdsDistinct db) :=
  inferInstanceAs (Decidable (db.events.Pairwise _))

/-- Labels naming the four exposed registration operations. -/
inductive OpLabel
  | addL
  | delL
  | updL
  | markL
deriving DecidableEq, Repr

/-- One sequential call of an exposed registration operation, labelled by
the operation.  The add step carries the freshness of the generated id
(crypto.randomUUID); the update step is restricted to the statuses the
App.tsx call sites pass, APPROVED and REJECTED (handleStatusUpdate and the
bulk approve and reject buttons). -/
inductive StepL : OpLabel → DB → DB → Prop
  | add (db : DB) (newId : String) (reg : RegInput)
      (hfresh : ∀ r ∈ db.registrations, ¬ r.id = newId) :
      StepL OpLabel.addL db (addRegistration db newId reg).1
  | del (db : DB) (i : String) : StepL OpLabel.delL db (deleteRegistration db i).1
  | upd (db : DB) (i : String) (st : RegistrationStatus)
      (hst : st = APPROVED ∨ st = REJECTED) :
      StepL OpLabel.updL db (updateRegistrationStatus db i st)
  | mark (db : DB) (i : String) (t : Nat) :
      StepL OpLabel.markL db (markAttendance db i t).1

/-! ### Concrete sample data for counterexamples and witnesses -/

/-- A concrete event with the given id, capacity and maxTeamSize. -/
def sampleEvent (i : String) (cap : Nat) (mts : Option Nat) : Event :=
  { id := i
    title := "Launch"
    description := "demo"
    date := 100
    endDate := 200
    location := "Hall"
    locationType := none
    capacity := cap
    imageUrl := ""
    organizerId := "org1"
    isRegistrationOpen := none
    customQuestions := []
    maxTeamSize := mts
    participationMode := none }

/-- A concrete registration with the given id, event, status and
registeredAt. -/
def sampleReg (i eid : String) (st : RegistrationStatus) (t : Nat) : Registration :=
  { id := i
    eventId := eid
    participantId := "u1"
    participantName := "Pat"
    participantEmail := "pat@example.com"
    status := st
    attended := false
    attendanceTime := none
    registeredAt := t
    answers := []
    teamId := none
    teamName := none
    isTeamLeader := none
    participationType := none }

/-- A concrete addRegistration input for the given event. -/
def sampleInput (eid : String) (t : Nat) : RegInput :=
  { eventId := eid
    participantId := "u1"
    participantName := "Pat"
    participantEmail := "pat@example.com"
    status := PENDING
    attended := false
    attendanceTime := none
    registeredAt := t
    answers := []
    teamId := none
    teamName := none
    isTeamLeader := none
    participationType := none }

/-- A concrete user whose email matches sampleReg. -/
def sampleUser : User :=
  { id := "u1", name := "Pat", email := "pat@example.com", role := "attendee" }

/-- A concrete team for the join-by-code flow. -/
def sampleTeam (i eid code : String) (ms : List TeamMember) : Team :=
  { id := i
    name := "Rockets"
    eventId := eid
    leaderId := "u9"
    members := ms
    inviteCode := code
    createdAt := 5 }

/-! ### Toolkit lemmas on the list primitives -/

theorem pairwise_key_unique {α : Type} {key : α → String} {l : List α}
    (h : l.Pairwise (fun a b => ¬ key a = key b)) {a b : α}
    (ha : a ∈ l) (hb : b ∈ l) (hk : key a = key b) : a = b := by
  by_contra hne
  have hsymm : Symmetric (fun a b : α => ¬ key a = key b) := by
    intro x y hxy he
    exact hxy he.symm
  exact h.forall hsymm ha hb hne hk

theorem length_filter_mono {p q : Registration → Bool}
    (h : ∀ a, p a = true → q a = true) :
    ∀ l : List Registration, (l.filter p).length ≤ (l.filter q).length := by
  intro l
  induction l with
  | nil => simp
  | cons a l ih =>
    cases hpa : p a with
    | false =>
      cases hqa : q a with
      | false => simpa [List.filter_cons, hpa, hqa] using ih
      | true =>
        simp only [List.filter_cons, hpa, hqa, if_true, if_false, List.length_cons]
        exact Nat.le_succ_of_le ih
    | true =>
      have hqa := h a hpa
      simp only [List.filter_cons, hpa, hqa, if_true, List.length_cons]
      exact Nat.succ_le_succ ih

theorem deleteOneReg_find_none {i : String} :
    ∀ {l : List Registration}, l.find? (fun r => r.id = i) = none →
      deleteOneReg l i = (l, 0) := by
  intro l
  induction l with
  | nil => intro _; rfl
  | cons r rs ih =>
    intro h
    by_cases hid : r.id = i
    · simp [List.find?_cons, hid] at h
    · have h' : rs.find? (fun r => r.id = i) = none := by
        simpa [List.find?_cons, hid] using h
      simp [deleteOneReg, hid, ih h']

theorem deleteOneReg_find_some {i : String} :
    ∀ {l : List Registration} {r0}, l.find? (fun r => r.id = i) = some r0 →
      ∃ l₁ l₂, l = l₁ ++ r0 :: l₂ ∧ (∀ x ∈ l₁, ¬ x.id = i) ∧ r0.id = i ∧
        deleteOneReg l i = (l₁ ++ l₂, 1) := by
  intro l
  induction l with
  | nil => intro r0 h; simp [List.find?] at h
  | cons r rs ih =>
    intro r0 h
    by_cases hid : r.id = i
    · have hr : r = r0 := by simpa [List.find?_cons, hid] using h
      subst hr
      exact ⟨[], rs, rfl, by simp, hid, by simp [deleteOneReg, hid]⟩
    · have h' : rs.find? (fun r => r.id = i) = some r0 := by
        simpa [List.find?_cons, hid] using h
      obtain ⟨l₁, l₂, hl, hne, hid0, hdel⟩ := ih h'
      refine ⟨r :: l₁, l₂, by simp [hl], ?_, hid0, ?_⟩
      · intro x hx
        rcases List.mem_cons.1 hx with rfl | hx'
        · exact hid
        · exact hne x hx'
      · simp [deleteOneReg, hid, hdel]

theorem mem_deleteOneReg {i : String} :
    ∀ {l : List Registration} {x}, x ∈ (deleteOneReg l i).1 → x ∈ l := by
  intro l
  induction l with
  | nil => intro x h; simp [deleteOneReg] at h
  | cons r rs ih =>
    intro x h
    by_cases hid : r.id = i
    · simp only [deleteOneReg, if_pos hid] at h
      exact List.mem_cons_of_mem _ h
    · simp only [deleteOneReg, if_neg hid, List.mem_cons] at h
      rcases h with rfl | h'
      · exact List.mem_cons_self _ _
      · exact List.mem_cons_of_mem _ (ih h')

theorem setStatusOne_append {i : String} {st : RegistrationStatus} :
    ∀ {l₁ : List Registration} {w : Registration} {l₂ : List Registration},
      (∀ x ∈ l₁, ¬ x.id = i) → w.id = i →
      setStatusOne (l₁ ++ w :: l₂) i st = l₁ ++ { w with status := st } :: l₂ := by
  intro l₁
  induction l₁ with
  | nil => intro w l₂ _ hw; simp [setStatusOne, hw]
  | cons a l ih =>
    intro w l₂ h₁ hw
    have ha : ¬ a.id = i := h₁ a (List.mem_cons_self _ _)
    have hstep : setStatusOne (a :: (l ++ w :: l₂)) i st =
        a :: setStatusOne (l ++ w :: l₂) i st := by
      simp [setStatusOne, ha]
    calc setStatusOne ((a :: l) ++ w :: l₂) i st
        = a :: setStatusOne (l ++ w :: l₂) i st := by rw [List.cons_append, hstep]
      _ = a :: (l ++ { w with status := st } :: l₂) := by
            rw [ih (fun x hx => h₁ x (List.mem_cons_of_mem _ hx)) hw]
      _ = (a :: l) ++ { w with status := st } :: l₂ := by rw [List.cons_append]

theorem mem_setStatusOne {i : String} {st : RegistrationStatus} :
    ∀ {l : List Registration} {x}, x ∈ setStatusOne l i st →
      x ∈ l ∨ ∃ r, r ∈ l ∧ r.id = i ∧ x = { r with status := st } := by
  intro l
  induction l with
  | nil => intro x h; simp [setStatusOne] at h
  | cons r rs ih =>
    intro x h
    by_cases hid : r.id = i
    · simp only [setStatusOne, if_pos hid, List.mem_cons] at h
      rcases h with rfl | h'
      · exact Or.inr ⟨r, List.mem_cons_self _ _, hid, rfl⟩
      · exact Or.inl (List.mem_cons_of_mem _ h')
    · simp only [setStatusOne, if_neg hid, List.mem_cons] at h
      rcases h with rfl | h'
      · exact Or.inl (List.mem_cons_self _ _)
      · rcases ih h' with h'' | ⟨r0, hr0, hr0i, rfl⟩
        · exact Or.inl (List.mem_cons_of_mem _ h'')
        · exact Or.inr ⟨r0, List.mem_cons_of_mem _ hr0, hr0i, rfl⟩

theorem mem_setStatusOne_of_ne {i : String} {st : RegistrationStatus} :
    ∀ {l : List Registration} {x}, x ∈ l → ¬ x.id = i → x ∈ setStatusOne l i st := by
  intro l
  induction l with
  | nil => intro x h; simp at h
  | cons r rs ih =>
    intro x h hx
    by_cases hid : r.id = i
    · rcases List.mem_cons.1 h with rfl | h'
      · exact absurd hid hx
      · simp only [setStatusOne, if_pos hid]
        exact List.mem_cons_of_mem _ h'
    · rcases List.mem_cons.1 h with rfl | h'
      · simp only [setStatusOne, if_neg hid]
        exact List.mem_cons_self _ _
      · simp only [setStatusOne, if_neg hid]
        exact List.mem_cons_of_mem _ (ih h' hx)

theorem mem_setAttendedOne {i : String} {t : Nat} :
    ∀ {l : List Registration} {x}, x ∈ setAttendedOne l i t →
      x ∈ l ∨ ∃ r, r ∈ l ∧ r.id = i ∧ x = { r with attended := true, attendanceTime := some t } := by
  intro l
  induction l with
  | nil => intro x h; simp [setAttendedOne] at h
  | cons r rs ih =>
    intro x h
    by_cases hid : r.id = i
    · simp only [setAttendedOne, if_pos hid, List.mem_cons] at h
      rcases h with rfl | h'
      · exact Or.inr ⟨r, List.mem_cons_self _ _, hid, rfl⟩
      · exact Or.inl (List.mem_cons_of_mem _ h')
    · simp only [setAttendedOne, if_neg hid, List.mem_cons] at h
      rcases h with rfl | h'
      · exact Or.inl (List.mem_cons_self _ _)
      · rcases ih h' with h'' | ⟨r0, hr0, hr0i, rfl⟩
        · exact Or.inl (List.mem_cons_of_mem _ h'')
        · exact Or.inr ⟨r0, List.mem_cons_of_mem _ hr0, hr0i, rfl⟩

theorem idsDistinct_split {l : List Registration} {w : Registration}
    (hd : IdsDistinct l) (hw : w ∈ l) :
    ∃ l₁ l₂, l = l₁ ++ w :: l₂ ∧ ∀ x ∈ l₁, ¬ x.id = w.id := by
  obtain ⟨l₁, l₂, rfl⟩ := List.append_of_mem hw
  refine ⟨l₁, l₂, rfl, ?_⟩
  intro x hx
  exact (List.pairwise_append.1 hd).2.2 x hx w (List.mem_cons_self _ _)

theorem idsDistinct_of_sublist {l l' : List Registration}
    (hs : List.Sublist l' l) (h : IdsDistinct l) : IdsDistinct l' :=
  h.sublist hs

theorem mem_sortByTime {l : List Registration} {x : Registration} :
    x ∈ sortByTime l ↔ x ∈ l :=
  List.mem_insertionSort regTimeLE

theorem sortByTime_head_min {l : List Registration} {w : Registration}
    {rest : List Registration} (h : sortByTime l = w :: rest) :
    ∀ x ∈ l, w.registeredAt ≤ x.registeredAt := by
  intro x hx
  have hx' : x ∈ sortByTime l := mem_sortByTime.2 hx
  rw [h, List.mem_cons] at hx'
  rcases hx' with rfl | hx''
  · exact Nat.le_refl _
  · have hs := List.sorted_insertionSort regTimeLE l
    rw [show List.insertionSort regTimeLE l = sortByTime l from rfl, h] at hs
    exact List.rel_of_sorted_cons hs x hx''

theorem sortByTime_eq_nil {l : List Registration} : sortByTime l = [] ↔ l = [] := by
  constructor
  · intro h
    have hlen := List.length_insertionSort regTimeLE l
    rw [show List.insertionSort regTimeLE l = sortByTime l from rfl, h] at hlen
    exact List.length_eq_zero.1 hlen.symm
  · intro h; subst h; rfl

/-! ### Characterizations of the storage operations -/

theorem addRegistration_none {db : DB} {newId : String} {reg : RegInput}
    (hf : db.events.find? (fun e => e.id = reg.eventId) = none) :
    addRegistration db newId reg = (db, none) := by
  unfold addRegistration
  rw [hf]

theorem addRegistration_eq {db : DB} {newId : String} {reg : RegInput} {event : Event}
    (hf : db.events.find? (fun e => e.id = reg.eventId) = some event) :
    addRegistration db newId reg =
      ({ db with registrations := db.registrations ++
          [reg.toReg newId
            (if event.capacity ≤ countNonRejected db.registrations reg.eventId
              then WAITLISTED else PENDING)] },
        some (reg.toReg newId
          (if event.capacity ≤ countNonRejected db.registrations reg.eventId
            then WAITLISTED else PENDING))) := by
  unfold addRegistration countNonRejected
  rw [hf]

theorem deleteRegistration_found {db : DB} {i : String} {r0 : Registration}
    {l₁ l₂ : List Registration}
    (hfind : db.registrations.find? (fun r => r.id = i) = some r0)
    (hdel : deleteOneReg db.registrations i = (l₁ ++ l₂, 1)) :
    deleteRegistration db i =
      (match sortByTime ((l₁ ++ l₂).filter
          (fun r => r.eventId = r0.eventId ∧ r.status = WAITLISTED)) with
       | [] => ({ db with registrations := l₁ ++ l₂ }, true)
       | nextInLine :: _ =>
         ({ db with registrations := setStatusOne (l₁ ++ l₂) nextInLine.id PENDING },
           true)) := by
  unfold deleteRegistration
  rw [hfind, hdel]
  rfl

theorem deleteRegistration_regs_cases (db : DB) (i : String) :
    (deleteRegistration db i).1.events = db.events ∧
    (deleteRegistration db i).1.teams = db.teams ∧
    ((deleteRegistration db i).1.registrations = (deleteOneReg db.registrations i).1 ∨
      ∃ nid, (deleteRegistration db i).1.registrations =
        setStatusOne (deleteOneReg db.registrations i).1 nid PENDING) := by
  rcases hm : db.registrations.find? (fun r => r.id = i) with _ | r0
  · have heq : deleteRegistration db i =
        ({ db with registrations := (deleteOneReg db.registrations i).1 },
          decide (0 < (deleteOneReg db.registrations i).2)) := by
      unfold deleteRegistration
      rw [hm]
      rfl
    rw [heq]
    exact ⟨rfl, rfl, Or.inl rfl⟩
  · obtain ⟨l₁, l₂, hl, hne, hid0, hdel⟩ := deleteOneReg_find_some hm
    have heq := deleteRegistration_found hm hdel
    have hregs1 : (deleteOneReg db.registrations i).1 = l₁ ++ l₂ := by rw [hdel]
    rcases hs : sortByTime ((l₁ ++ l₂).filter
        (fun r => r.eventId = r0.eventId ∧ r.status = WAITLISTED)) with _ | ⟨w, rest⟩
    · rw [hs] at heq
      rw [heq]
      exact ⟨rfl, rfl, Or.inl hregs1.symm⟩
    · rw [hs] at heq
      rw [heq]
      refine ⟨rfl, rfl, Or.inr ⟨w.id, ?_⟩⟩
      rw [hregs1]

theorem markAttendance_cases (db : DB) (i : String) (t : Nat) :
    (markAttendance db i t).1 = db ∨
    ((markAttendance db i t).1.events = db.events ∧
      (markAttendance db i t).1.teams = db.teams ∧
      (markAttendance db i t).1.registrations = setAttendedOne db.registrations i t) := by
  rcases hm : db.registrations.find? (fun r => r.id = i) with _ | r
  · have heq : markAttendance db i t = (db, false) := by
      unfold markAttendance
      rw [hm]
    rw [heq]
    exact Or.inl rfl
  · by_cases hst : r.status = APPROVED
    · have heq : markAttendance db i t =
          ({ db with registrations := setAttendedOne db.registrations i t }, true) := by
        simp [markAttendance, hm, hst]
      rw [heq]
      exact Or.inr ⟨rfl, rfl, rfl⟩
    · have heq : markAttendance db i t = (db, false) := by
        simp [markAttendance, hm, hst]
      rw [heq]
      exact Or.inl rfl

theorem countPA_append (l₁ l₂ : List Registration) (eid : String) :
    countPA (l₁ ++ l₂) eid = countPA l₁ eid + countPA l₂ eid := by
  simp [countPA, List.filter_append]

theorem countPA_cons (r : Registration) (l : List Registration) (eid : String) :
    countPA (r :: l) eid =
      (if r.eventId = eid ∧ (r.status = APPROVED ∨ r.status = PENDING) then 1 else 0) +
        countPA l eid := by
  by_cases h : r.eventId = eid ∧ (r.status = APPROVED ∨ r.status = PENDING)
  · simp [countPA, List.filter_cons, h, Nat.add_comm]
  · simp [countPA, List.filter_cons, h]

theorem countPA_le_countNonRejected (l : List Registration) (eid : String) :
    countPA l eid ≤ countNonRejected l eid := by
  refine length_filter_mono ?_ l
  intro a ha
  have ha' := of_decide_eq_true ha
  refine decide_eq_true ?_
  refine ⟨ha'.1, ?_⟩
  rcases ha'.2 with h | h <;> simp [h]

theorem handleRegister_dup_reject {db : DB} {user : User} {eventId : String}
    {now regTime : Nat} {answers : List (String × String)} {newId : String}
    {choice : TeamChoice} {ev : Event}
    (hf : db.events.find? (fun e => e.id = eventId) = some ev)
    (hopen : ¬ ev.isRegistrationOpen = some false)
    (hd : ¬ ev.date ≤ now)
    (hdup : (db.registrations.find?
      (fun r => r.eventId = eventId ∧ r.participantEmail = user.email)).isSome = true) :
    handleRegister db user eventId now regTime answers choice newId = (db, none) := by
  simp only [handleRegister, hf]
  rw [if_neg hopen, if_neg hd, if_pos hdup]

theorem handleRegister_individual_eq {db : DB} {user : User} {eventId : String}
    {now regTime : Nat} {answers : List (String × String)} {newId : String} {ev : Event}
    (hf : db.events.find? (fun e => e.id = eventId) = some ev)
    (hopen : ¬ ev.isRegistrationOpen = some false)
    (hd : ¬ ev.date ≤ now)
    (hdup : (db.registrations.find?
      (fun r => r.eventId = eventId ∧ r.participantEmail = user.email)).isSome = false)
    (hans : requiredAnswerMissing ev answers = false) :
    handleRegister db user eventId now regTime answers TeamChoice.individual newId =
      addRegistration db newId
        { mkRegData user eventId
            (if ev.capacity ≤
                (db.registrations.filter (fun r => r.eventId = eventId ∧
                  (r.status = APPROVED ∨ r.status = PENDING))).length
              then WAITLISTED else PENDING) regTime answers with
          participationType := some "individual" } := by
  have hdup' : ¬ ((db.registrations.find?
      (fun r => r.eventId = eventId ∧ r.participantEmail = user.email)).isSome = true) := by
    rw [hdup]
    decide
  have hans' : ¬ (requiredAnswerMissing ev answers = true) := by
    simp [hans]
  simp only [handleRegister, hf]
  rw [if_neg hopen, if_neg hd, if_neg hdup', if_neg hans']

theorem handleRegister_join_eq {db : DB} {user : User} {eventId : String}
    {now regTime : Nat} {answers : List (String × String)} {newId code : String} {ev : Event}
    (hf : db.events.find? (fun e => e.id = eventId) = some ev)
    (hopen : ¬ ev.isRegistrationOpen = some false)
    (hd : ¬ ev.date ≤ now)
    (hdup : (db.registrations.find?
      (fun r => r.eventId = eventId ∧ r.participantEmail = user.email)).isSome = false)
    (hans : requiredAnswerMissing ev answers = false) :
    handleRegister db user eventId now regTime answers (TeamChoice.joinByCode code) newId =
      (if code.toList.all Char.isWhitespace then (db, none)
       else
        match getTeamByInviteCode db code with
        | none => (db, none)
        | some team =>
          if ¬ team.eventId = eventId then (db, none)
          else if jsOrNat ev.maxTeamSize 99 ≤ team.members.length then (db, none)
          else
            addRegistration
              (joinTeam db team.id
                { userId := user.id, userName := user.name, email := user.email })
              newId
              { mkRegData user eventId
                  (if ev.capacity ≤
                      (db.registrations.filter (fun r => r.eventId = eventId ∧
                        (r.status = APPROVED ∨ r.status = PENDING))).length
                    then WAITLISTED else PENDING) regTime answers with
                teamId := some team.id
                teamName := some team.name
                isTeamLeader := some false
                participationType := some "team" }) := by
  have hdup' : ¬ ((db.registrations.find?
      (fun r => r.eventId = eventId ∧ r.participantEmail = user.email)).isSome = true) := by
    rw [hdup]
    decide
  have hans' : ¬ (requiredAnswerMissing ev answers = true) := by
    simp [hans]
  simp only [handleRegister, hf]
  rw [if_neg hopen, if_neg hd, if_neg hdup', if_neg hans']

/-! ### Claim C8 -/

/-- C8 counterexample: the claim says every exposed storage function
catches a failing backend call and returns a zero value, never propagating;
but the Mongo branch of saveEvent rethrows the caught error, so a backend
failure propagates to the caller. -/
theorem c8_saveEvent_propagates :
    throws (saveEventCatch (Except.error { message := "network down" })) = true ∧
    saveEventCatch (Except.error { message := "network down" }) =
      Except.error { message := "network down" } :=
  ⟨rfl, rfl⟩

/-- C8 (amended): every exposed storage function except saveEvent and
updateEvent maps a failing Mongo-branch body to a zero value (or falls
through) and never propagates; saveEvent and updateEvent rethrow the error
unchanged. -/
theorem c8_catch_policy (e : MongoError)
    (b₁ : Except MongoError (List Event)) (b₂ : Except MongoError Unit)
    (b₃ : Except MongoError (List Registration))
    (b₄ : Except MongoError Registration)
    (b₅ : Except MongoError Bool) (b₆ : Except MongoError Bool)
    (b₇ : Except MongoError Unit) :
    throws (getEventsCatch b₁) = false ∧
    throws (deleteEventCatch b₂) = false ∧
    throws (getRegistrationsCatch b₃) = false ∧
    throws (addRegistrationCatch b₄) = false ∧
    throws (deleteRegistrationCatch b₅) = false ∧
    throws (markAttendanceCatch b₆) = false ∧
    throws (updateRegistrationStatusCatch b₇) = false ∧
    saveEventCatch (Except.error e) = Except.error e ∧
    updateEventCatch (Except.error e) = Except.error e :=
  ⟨by cases b₁ <;> rfl, by cases b₂ <;> rfl, by cases b₃ <;> rfl,
    by cases b₄ <;> rfl, by cases b₅ <;> rfl, by cases b₆ <;> rfl,
    by cases b₇ <;> rfl, rfl, rfl⟩

/-! ### Claim C9 -/

/-- C9 counterexample: the claim says a POST with an unknown action yields
400 with the Unknown-action body; but when the collection field is also
missing, the handler checks collection first and answers 400 with the
Missing-collection body instead. -/
theorem c9_missing_collection_precedence :
    handler { method := "POST", action := "frobnicate", collection := none }
        (Except.ok ()) (fun _ => Except.ok "") =
      { status := 400, body := RespBody.jsonError "Missing collection name" } ∧
    ¬ RespBody.jsonError "Missing collection name" =
        RespBody.jsonError ("Unknown action: " ++ "frobnicate") := by
  exact ⟨rfl, by decide⟩

/-- C9 (amended): for a POST request the handler checks in order: a missing
collection yields 400 with the Missing-collection body regardless of the
action; with a collection present, a connection failure (or any thrown
error) yields 500 with error and details fields; with the client connected,
an action outside the six dispatched ones yields 400 with the
Unknown-action body; a dispatched action whose driver call throws yields
500 with error and details fields. -/
theorem c9_handler_contract (req : ApiRequest) (connect : Except String Unit)
    (run : ApiAction → Except String String) (hm : req.method = "POST") :
    (req.collection = none →
      handler req connect run =
        { status := 400, body := RespBody.jsonError "Missing collection name" }) ∧
    (∀ c, req.collection = some c → connect = Except.ok () →
      parseAction req.action = none →
      handler req connect run =
        { status := 400, body := RespBody.jsonError ("Unknown action: " ++ req.action) }) ∧
    (∀ c err, req.collection = some c → connect = Except.error err →
      handler req connect run =
        { status := 500, body := RespBody.jsonErrorDetails "Server Error" err }) ∧
    (∀ c a err, req.collection = some c → connect = Except.ok () →
      parseAction req.action = some a → run a = Except.error err →
      handler req connect run =
        { status := 500, body := RespBody.jsonErrorDetails "Server Error" err }) := by
  refine ⟨?_, ?_, ?_, ?_⟩
  · intro hc
    simp [handler, hm, hc]
  · intro c hc hcon hp
    simp [handler, hm, hc, hcon, hp]
  · intro c err hc hcon
    simp [handler, hm, hc, hcon]
  · intro c a err hc hcon hp hr
    simp [handler, hm, hc, hcon, hp, hr]

/-- C9 witness: the amended contract instantiated on concrete requests. -/
theorem c9_handler_contract_witness :
    handler { method := "POST", action := "frobnicate", collection := some "events" }
        (Except.ok ()) (fun _ => Except.ok "") =
      { status := 400, body := RespBody.jsonError ("Unknown action: " ++ "frobnicate") } :=
  (c9_handler_contract
    { method := "POST", action := "frobnicate", collection := some "events" }
    (Except.ok ()) (fun _ => Except.ok "") rfl).2.1 "events" rfl rfl rfl

/-! ### Claim C10 -/

/-- C10: a successful addRegistration persists and returns exactly the
input record with a freshly generated id and the capacity-computed status;
every other field is stored unchanged, the store is extended by that one
document, and the caller-supplied status has no effect on the result. -/
theorem c10_addRegistration_frame (db : DB) (newId : String) (reg : RegInput)
    (db' : DB) (nr : Registration)
    (h : addRegistration db newId reg = (db', some nr)) :
    nr.id = newId ∧
    nr.eventId = reg.eventId ∧ nr.participantId = reg.participantId ∧
    nr.participantName = reg.participantName ∧
    nr.participantEmail = reg.participantEmail ∧
    nr.attended = reg.attended ∧ nr.attendanceTime = reg.attendanceTime ∧
    nr.registeredAt = reg.registeredAt ∧ nr.answers = reg.answers ∧
    nr.teamId = reg.teamId ∧ nr.teamName = reg.teamName ∧
    nr.isTeamLeader = reg.isTeamLeader ∧
    nr.participationType = reg.participationType ∧
    (nr.status = WAITLISTED ∨ nr.status = PENDING) ∧
    db'.events = db.events ∧ db'.teams = db.teams ∧
    db'.registrations = db.registrations ++ [nr] ∧
    (∀ st', addRegistration db newId { reg with status := st' } = (db', some nr)) := by
  rcases hf : db.events.find? (fun e => e.id = reg.eventId) with _ | event
  · rw [addRegistration_none hf] at h
    simp at h
  · rw [addRegistration_eq hf] at h
    injection h with h1 h2
    injection h2 with h2
    subst h1
    subst h2
    refine ⟨rfl, rfl, rfl, rfl, rfl, rfl, rfl, rfl, rfl, rfl, rfl, rfl, rfl, ?_, rfl, rfl, rfl, ?_⟩
    · by_cases hfull : event.capacity ≤ countNonRejected db.registrations reg.eventId
      · exact Or.inl (by simp [RegInput.toReg, if_pos hfull])
      · exact Or.inr (by simp [RegInput.toReg, if_neg hfull])
    · intro st'
      exact addRegistration_eq hf

/-! ### Claim C3 -/

/-- C3 counterexample: the claim says the assigned status comes from the
count of APPROVED and PENDING registrations, WAITLISTED ones not
contributing; on an event of capacity 2 with one PENDING and one WAITLISTED
registration the APPROVED-or-PENDING count is 1 < 2, yet addRegistration
stores the newcomer as WAITLISTED because its filter only excludes
REJECTED. -/
theorem c3_count_counterexample :
    ((addRegistration
        { events := [sampleEvent "e1" 2 none],
          registrations := [sampleReg "a" "e1" PENDING 1, sampleReg "b" "e1" WAITLISTED 2],
          teams := [] }
        "c" (sampleInput "e1" 3)).2.map (fun r => r.status) = some WAITLISTED) ∧
    countPA [sampleReg "a" "e1" PENDING 1, sampleReg "b" "e1" WAITLISTED 2] "e1" < 2 := by
  decide

/-- C3 (amended): on an existing event, addRegistration counts the existing
registrations of the event whose status is not REJECTED (WAITLISTED ones
included); the newcomer is persisted WAITLISTED when that count reaches
capacity and PENDING otherwise. -/
theorem c3_status_rule (db : DB) (newId : String) (reg : RegInput) (event : Event)
    (hf : db.events.find? (fun e => e.id = reg.eventId) = some event) :
    ∃ nr, addRegistration db newId reg =
        ({ db with registrations := db.registrations ++ [nr] }, some nr) ∧
      nr.status = (if event.capacity ≤ countNonRejected db.registrations reg.eventId
        then WAITLISTED else PENDING) :=
  ⟨_, addRegistration_eq hf, rfl⟩

/-- C3 witness: the amended rule instantiated on the concrete store of the
counterexample. -/
theorem c3_status_rule_witness :
    ∃ nr, addRegistration
        { events := [sampleEvent "e1" 2 none],
          registrations := [sampleReg "a" "e1" PENDING 1, sampleReg "b" "e1" WAITLISTED 2],
          teams := [] }
        "c" (sampleInput "e1" 3) =
        ({ events := [sampleEvent "e1" 2 none],
           registrations := [sampleReg "a" "e1" PENDING 1, sampleReg "b" "e1" WAITLISTED 2] ++ [nr],
           teams := [] }, some nr) ∧
      nr.status = (if (sampleEvent "e1" 2 none).capacity ≤
          countNonRejected [sampleReg "a" "e1" PENDING 1, sampleReg "b" "e1" WAITLISTED 2] "e1"
        then WAITLISTED else PENDING) :=
  c3_status_rule _ "c" (sampleInput "e1" 3) (sampleEvent "e1" 2 none) rfl

/-! ### Claim C4 -/

/-- C4 counterexample: the claim says markAttendance on an already attended
APPROVED registration is a no-op returning false; the code has no attended
guard, returns true and restamps attendanceTime. -/
theorem c4_attended_counterexample :
    ((markAttendance
        { events := [],
          registrations :=
            [{ sampleReg "a" "e1" APPROVED 1 with attended := true, attendanceTime := some 50 }],
          teams := [] } "a" 99).2 = true) ∧
    ((markAttendance
        { events := [],
          registrations :=
            [{ sampleReg "a" "e1" APPROVED 1 with attended := true, attendanceTime := some 50 }],
          teams := [] } "a" 99).1.registrations =
      [{ sampleReg "a" "e1" APPROVED 1 with attended := true, attendanceTime := some 99 }]) := by
  decide

/-- C4 (amended): markAttendance returns false and leaves the store
unchanged unless the registration exists with status APPROVED; when it
does — already attended or not — it returns true and stamps attended and
attendanceTime on it. -/
theorem c4_markAttendance_rule (db : DB) (i : String) (t : Nat) :
    ((markAttendance db i t).2 = false → (markAttendance db i t).1 = db) ∧
    (db.registrations.find? (fun r => r.id = i) = none →
      (markAttendance db i t).2 = false) ∧
    (∀ r, db.registrations.find? (fun r => r.id = i) = some r →
      ((markAttendance db i t).2 = true ↔ r.status = APPROVED)) ∧
    (∀ r, db.registrations.find? (fun r => r.id = i) = some r →
      r.status = APPROVED →
      (markAttendance db i t).1.registrations = setAttendedOne db.registrations i t) := by
  rcases hm : db.registrations.find? (fun r => r.id = i) with _ | r
  · have heq : markAttendance db i t = (db, false) := by
      unfold markAttendance
      rw [hm]
    rw [heq]
    refine ⟨fun _ => rfl, fun _ => rfl, ?_, ?_⟩
    · intro r' hr'
      rw [hm] at hr'
      exact absurd hr' (by simp)
    · intro r' hr'
      rw [hm] at hr'
      exact absurd hr' (by simp)
  · by_cases hst : r.status = APPROVED
    · have heq : markAttendance db i t =
          ({ db with registrations := setAttendedOne db.registrations i t }, true) := by
        simp [markAttendance, hm, hst]
      rw [heq]
      refine ⟨fun hfalse => absurd hfalse (by simp), fun hnone => ?_, ?_, ?_⟩
      · rw [hm] at hnone
        exact absurd hnone (by simp)
      · intro r' hr'
        have hrr : r = r' := Option.some.inj (hm.symm.trans hr')
        subst hrr
        exact ⟨fun _ => hst, fun _ => rfl⟩
      · intro r' _ _
        rfl
    · have heq : markAttendance db i t = (db, false) := by
        simp [markAttendance, hm, hst]
      rw [heq]
      refine ⟨fun _ => rfl, fun _ => rfl, ?_, ?_⟩
      · intro r' hr'
        have hrr : r = r' := Option.some.inj (hm.symm.trans hr')
        subst hrr
        exact ⟨fun htrue => absurd htrue (by simp), fun happ => absurd happ hst⟩
      · intro r' hr' happ
        have hrr : r = r' := Option.some.inj (hm.symm.trans hr')
        subst hrr
        exact absurd happ hst

/-- C4 witness: the amended rule applied to an APPROVED not-yet-attended
registration marks it and returns true. -/
theorem c4_markAttendance_rule_witness :
    ((markAttendance
        { events := [], registrations := [sampleReg "a" "e1" APPROVED 1], teams := [] }
        "a" 9).2 = true) ∧
    ((markAttendance
        { events := [], registrations := [sampleReg "a" "e1" APPROVED 1], teams := [] }
        "a" 9).1.registrations =
      setAttendedOne [sampleReg "a" "e1" APPROVED 1] "a" 9) := by
  have h := c4_markAttendance_rule
    { events := [], registrations := [sampleReg "a" "e1" APPROVED 1], teams := [] } "a" 9
  exact ⟨(h.2.2.1 (sampleReg "a" "e1" APPROVED 1) rfl).mpr rfl,
    h.2.2.2 (sampleReg "a" "e1" APPROVED 1) rfl rfl⟩

/-! ### Claim C6 -/

/-- C6 counterexample: the claim says a caller whose only registration for
the event is REJECTED may register again; the duplicate check of
handleRegister matches on eventId and email alone, so the flow rejects and
creates nothing. -/
theorem c6_rejected_blocks_counterexample :
    (handleRegister
        { events := [sampleEvent "e1" 5 none],
          registrations := [sampleReg "x" "e1" REJECTED 1], teams := [] }
        sampleUser "e1" 10 20 [] TeamChoice.individual "n").2 = none ∧
    (handleRegister
        { events := [sampleEvent "e1" 5 none],
          registrations := [sampleReg "x" "e1" REJECTED 1], teams := [] }
        sampleUser "e1" 10 20 [] TeamChoice.individual "n").1 =
      { events := [sampleEvent "e1" 5 none],
        registrations := [sampleReg "x" "e1" REJECTED 1], teams := [] } ∧
    (sampleReg "x" "e1" REJECTED 1).status = REJECTED := by
  decide

/-- C6 (amended): with the other guards passing (event exists, registration
open, event not started, required questions answered), the individual flow
creates no registration exactly when the caller already holds a
registration of any status (REJECTED included) for the event, matched by
eventId and email; on that rejection the store is unchanged. -/
theorem c6_duplicate_rule (db : DB) (user : User) (eventId : String)
    (now regTime : Nat) (answers : List (String × String)) (newId : String) (ev : Event)
    (hf : db.events.find? (fun e => e.id = eventId) = some ev)
    (hopen : ¬ ev.isRegistrationOpen = some false)
    (hdate : now < ev.date)
    (hans : requiredAnswerMissing ev answers = false) :
    ((handleRegister db user eventId now regTime answers TeamChoice.individual newId).2 =
        none ↔
      (db.registrations.find?
        (fun r => r.eventId = eventId ∧ r.participantEmail = user.email)).isSome = true) ∧
    ((handleRegister db user eventId now regTime answers TeamChoice.individual newId).2 =
        none →
      (handleRegister db user eventId now regTime answers TeamChoice.individual newId).1 =
        db) := by
  have hd : ¬ ev.date ≤ now := Nat.not_le.2 hdate
  cases hdup : (db.registrations.find?
      (fun r => r.eventId = eventId ∧ r.participantEmail = user.email)).isSome with
  | true =>
    rw [handleRegister_dup_reject hf hopen hd hdup]
    exact ⟨by simp [hdup], fun _ => rfl⟩
  | false =>
    rw [handleRegister_individual_eq hf hopen hd hdup hans, addRegistration_eq hf]
    refine ⟨?_, fun hnone => absurd hnone (by simp)⟩
    simp [hdup]

/-- C6 witness: the amended rule on an empty registration list - the flow
does create a registration. -/
theorem c6_duplicate_rule_witness :
    ((handleRegister
        { events := [sampleEvent "e1" 5 none], registrations := [], teams := [] }
        sampleUser "e1" 10 20 [] TeamChoice.individual "n").2 = none ↔
      (([] : List Registration).find?
        (fun r => r.eventId = "e1" ∧ r.participantEmail = sampleUser.email)).isSome = true) :=
  (c6_duplicate_rule
    { events := [sampleEvent "e1" 5 none], registrations := [], teams := [] }
    sampleUser "e1" 10 20 [] "n" (sampleEvent "e1" 5 none) rfl (by simp [sampleEvent])
    (by decide) rfl).1

/-! ### Claims C1 and C2, counterexamples -/

/-- C1 counterexample: starting from an empty store whose single event has
capacity 1, the sequential run add a, add b, add c, delete c leaves two
PENDING registrations: deleting the WAITLISTED registration c still
triggers waitlist promotion, raising the APPROVED-plus-PENDING count above
capacity. -/
theorem c1_capacity_invariant_counterexample :
    CapacityInv { events := [sampleEvent "e1" 1 none], registrations := [], teams := [] } ∧
    countPA
      ((deleteRegistration
        ((addRegistration
          ((addRegistration
            ((addRegistration
              { events := [sampleEvent "e1" 1 none], registrations := [], teams := [] }
              "a" (sampleInput "e1" 1)).1)
            "b" (sampleInput "e1" 2)).1)
          "c" (sampleInput "e1" 3)).1)
        "c").1).registrations "e1" = 2 ∧
    (sampleEvent "e1" 1 none).capacity = 1 := by
  decide

/-- C2 counterexample: the claim says every backend branch, the
local-storage one included, promotes the WAITLISTED peer with the minimum
registeredAt; the local-storage branch promotes the first WAITLISTED peer
in stored order: here the peer with registeredAt 5 is promoted while the
older peer with registeredAt 3 stays WAITLISTED. -/
theorem c2_local_branch_counterexample :
    ((deleteRegistrationLocal
        { events := [sampleEvent "e1" 1 none],
          registrations := [sampleReg "p" "e1" PENDING 1, sampleReg "w5" "e1" WAITLISTED 5,
            sampleReg "w3" "e1" WAITLISTED 3],
          teams := [] } "p").1.registrations =
      [sampleReg "w5" "e1" PENDING 5, sampleReg "w3" "e1" WAITLISTED 3]) ∧
    (sampleReg "w3" "e1" WAITLISTED 3).registeredAt <
      (sampleReg "w5" "e1" PENDING 5).registeredAt := by
  decide

/-! ### Claim C2, amended theorem -/

/-- C2 (amended): in the Mongo branch, when a registration is deleted and
the event still has WAITLISTED peers, deleteRegistration promotes exactly
one WAITLISTED peer whose registeredAt is minimal among them; every other
WAITLISTED peer keeps its record and stays WAITLISTED.  (The local-storage
branch instead promotes the first WAITLISTED peer in stored order, see the
counterexample.) -/
theorem c2_promotion_oldest (db : DB) (i : String) (r0 : Registration)
    (hfind : db.registrations.find? (fun r => r.id = i) = some r0)
    (hdistinct : IdsDistinct db.registrations)
    (hex : ∃ x ∈ (deleteOneReg db.registrations i).1,
      x.eventId = r0.eventId ∧ x.status = WAITLISTED) :
    ∃ w ∈ (deleteOneReg db.registrations i).1,
      w.eventId = r0.eventId ∧ w.status = WAITLISTED ∧
      (∀ x ∈ (deleteOneReg db.registrations i).1,
        x.eventId = r0.eventId → x.status = WAITLISTED →
        w.registeredAt ≤ x.registeredAt) ∧
      (deleteRegistration db i).1.registrations =
        setStatusOne (deleteOneReg db.registrations i).1 w.id PENDING ∧
      { w with status := PENDING } ∈ (deleteRegistration db i).1.registrations ∧
      (∀ x ∈ (deleteOneReg db.registrations i).1,
        x.status = WAITLISTED → ¬ x.id = w.id →
        x ∈ (deleteRegistration db i).1.registrations) := by
  obtain ⟨l₁, l₂, hl, hne, hid0, hdel⟩ := deleteOneReg_find_some hfind
  have hregs1 : (deleteOneReg db.registrations i).1 = l₁ ++ l₂ := by rw [hdel]
  have heq := deleteRegistration_found hfind hdel
  rcases hs : sortByTime ((l₁ ++ l₂).filter
      (fun r => r.eventId = r0.eventId ∧ r.status = WAITLISTED)) with _ | ⟨w, rest⟩
  · have hfe : (l₁ ++ l₂).filter
        (fun r => r.eventId = r0.eventId ∧ r.status = WAITLISTED) = [] :=
      sortByTime_eq_nil.1 hs
    obtain ⟨x, hx, hxe, hxs⟩ := hex
    rw [hregs1] at hx
    have hxf : x ∈ (l₁ ++ l₂).filter
        (fun r => r.eventId = r0.eventId ∧ r.status = WAITLISTED) :=
      List.mem_filter.2 ⟨hx, decide_eq_true ⟨hxe, hxs⟩⟩
    rw [hfe] at hxf
    cases hxf
  · rw [hs] at heq
    have hw1 : w ∈ sortByTime ((l₁ ++ l₂).filter
        (fun r => r.eventId = r0.eventId ∧ r.status = WAITLISTED)) := by
      rw [hs]
      exact List.mem_cons_self _ _
    have hwf : w ∈ (l₁ ++ l₂).filter
        (fun r => r.eventId = r0.eventId ∧ r.status = WAITLISTED) :=
      mem_sortByTime.1 hw1
    have hwmem : w ∈ l₁ ++ l₂ := (List.mem_filter.1 hwf).1
    have hwp : w.eventId = r0.eventId ∧ w.status = WAITLISTED :=
      of_decide_eq_true (List.mem_filter.1 hwf).2
    have hregsEq : (deleteRegistration db i).1.registrations =
        setStatusOne (l₁ ++ l₂) w.id PENDING := by rw [heq]
    have hd0 : IdsDistinct (l₁ ++ r0 :: l₂) := by
      rw [← hl]
      exact hdistinct
    have hsub : List.Sublist (l₁ ++ l₂) (l₁ ++ r0 :: l₂) :=
      List.Sublist.append_left (List.Sublist.cons r0 (List.Sublist.refl l₂)) l₁
    have hids1 : IdsDistinct (l₁ ++ l₂) := idsDistinct_of_sublist hsub hd0
    obtain ⟨u₁, u₂, hu, hpre⟩ := idsDistinct_split hids1 hwmem
    have hset : setStatusOne (l₁ ++ l₂) w.id PENDING =
        u₁ ++ { w with status := PENDING } :: u₂ := by
      rw [hu]
      exact setStatusOne_append hpre rfl
    rw [hregs1]
    refine ⟨w, hwmem, hwp.1, hwp.2, ?_, ?_, ?_, ?_⟩
    · intro x hx hxe hxs
      exact sortByTime_head_min hs x (List.mem_filter.2 ⟨hx, decide_eq_true ⟨hxe, hxs⟩⟩)
    · exact hregsEq
    · rw [hregsEq, hset]
      exact List.mem_append.2 (Or.inr (List.mem_cons_self _ _))
    · intro x hx hxs hxne
      rw [hregsEq]
      exact mem_setStatusOne_of_ne hx hxne

/-- C2 witness: the amended promotion applied to a concrete store where the
older of two WAITLISTED peers is promoted. -/
theorem c2_promotion_oldest_witness :
    ∃ w ∈ (deleteOneReg
        [sampleReg "p" "e1" PENDING 1, sampleReg "w3" "e1" WAITLISTED 3,
          sampleReg "w5" "e1" WAITLISTED 5] "p").1,
      w.eventId = (sampleReg "p" "e1" PENDING 1).eventId ∧ w.status = WAITLISTED ∧
      (∀ x ∈ (deleteOneReg
          [sampleReg "p" "e1" PENDING 1, sampleReg "w3" "e1" WAITLISTED 3,
            sampleReg "w5" "e1" WAITLISTED 5] "p").1,
        x.eventId = (sampleReg "p" "e1" PENDING 1).eventId → x.status = WAITLISTED →
        w.registeredAt ≤ x.registeredAt) ∧
      (deleteRegistration
        { events := [sampleEvent "e1" 1 none],
          registrations := [sampleReg "p" "e1" PENDING 1, sampleReg "w3" "e1" WAITLISTED 3,
            sampleReg "w5" "e1" WAITLISTED 5],
          teams := [] } "p").1.registrations =
        setStatusOne (deleteOneReg
          [sampleReg "p" "e1" PENDING 1, sampleReg "w3" "e1" WAITLISTED 3,
            sampleReg "w5" "e1" WAITLISTED 5] "p").1 w.id PENDING ∧
      { w with status := PENDING } ∈ (deleteRegistration
        { events := [sampleEvent "e1" 1 none],
          registrations := [sampleReg "p" "e1" PENDING 1, sampleReg "w3" "e1" WAITLISTED 3,
            sampleReg "w5" "e1" WAITLISTED 5],
          teams := [] } "p").1.registrations ∧
      (∀ x ∈ (deleteOneReg
          [sampleReg "p" "e1" PENDING 1, sampleReg "w3" "e1" WAITLISTED 3,
            sampleReg "w5" "e1" WAITLISTED 5] "p").1,
        x.status = WAITLISTED → ¬ x.id = w.id →
        x ∈ (deleteRegistration
          { events := [sampleEvent "e1" 1 none],
            registrations := [sampleReg "p" "e1" PENDING 1, sampleReg "w3" "e1" WAITLISTED 3,
              sampleReg "w5" "e1" WAITLISTED 5],
            teams := [] } "p").1.registrations) :=
  c2_promotion_oldest
    { events := [sampleEvent "e1" 1 none],
      registrations := [sampleReg "p" "e1" PENDING 1, sampleReg "w3" "e1" WAITLISTED 3,
        sampleReg "w5" "e1" WAITLISTED 5],
      teams := [] } "p" (sampleReg "p" "e1" PENDING 1) rfl (by decide)
    ⟨sampleReg "w3" "e1" WAITLISTED 3, by decide, by decide, rfl⟩

/-! ### Claim C1, amended theorem -/

/-- C1 (amended): on a store satisfying the capacity invariant, with
pairwise-distinct event ids, every addRegistration call preserves the
invariant, and a deleteRegistration call preserves it provided the deleted
registration's status is PENDING or APPROVED (and registration ids are
distinct); deleting a WAITLISTED or REJECTED registration can violate it
through the unconditional waitlist promotion, as the counterexample
shows. -/
theorem c1_invariant_preservation (db : DB)
    (hinv : CapacityInv db) (hev : EventIdsDistinct db) :
    (∀ newId reg, CapacityInv (addRegistration db newId reg).1) ∧
    (∀ i r0, db.registrations.find? (fun r => r.id = i) = some r0 →
      (r0.status = PENDING ∨ r0.status = APPROVED) →
      IdsDistinct db.registrations →
      CapacityInv (deleteRegistration db i).1) := by
  constructor
  · intro newId reg
    rcases hf : db.events.find? (fun e => e.id = reg.eventId) with _ | event
    · rw [addRegistration_none hf]
      exact hinv
    · rw [addRegistration_eq hf]
      intro e he
      have hbound := hinv e he
      show countPA (db.registrations ++
          [reg.toReg newId
            (if event.capacity ≤ countNonRejected db.registrations reg.eventId
              then WAITLISTED else PENDING)]) e.id ≤ e.capacity
      rw [countPA_append]
      by_cases hfull : event.capacity ≤ countNonRejected db.registrations reg.eventId
      · rw [if_pos hfull]
        have hz : countPA [reg.toReg newId WAITLISTED] e.id = 0 := by
          simp [countPA, RegInput.toReg]
        rw [hz]
        simpa using hbound
      · rw [if_neg hfull]
        by_cases heid : reg.eventId = e.id
        · have ho : countPA [reg.toReg newId PENDING] e.id = 1 := by
            simp [countPA, RegInput.toReg, heid]
          rw [ho]
          have hevmem : event ∈ db.events := List.mem_of_find?_eq_some hf
          have hevid : event.id = reg.eventId := by
            have hdec := List.find?_some hf
            exact of_decide_eq_true hdec
          have hee : e = event := pairwise_key_unique hev he hevmem (hevid.trans heid).symm
          have hcap : e.capacity = event.capacity := by rw [hee]
          have hlt : countNonRejected db.registrations reg.eventId < event.capacity :=
            Nat.not_le.mp hfull
          rw [heid] at hlt
          have hmono := countPA_le_countNonRejected db.registrations e.id
          omega
        · have ho : countPA [reg.toReg newId PENDING] e.id = 0 := by
            simp [countPA, RegInput.toReg, heid]
          rw [ho]
          simpa using hbound
  · intro i r0 hfind hst hids
    obtain ⟨l₁, l₂, hl, hne, hid0, hdel⟩ := deleteOneReg_find_some hfind
    have heq := deleteRegistration_found hfind hdel
    rcases hs : sortByTime ((l₁ ++ l₂).filter
        (fun r => r.eventId = r0.eventId ∧ r.status = WAITLISTED)) with _ | ⟨w, rest⟩
    · rw [hs] at heq
      rw [heq]
      intro e he
      have hbound := hinv e he
      show countPA (l₁ ++ l₂) e.id ≤ e.capacity
      have h0 : countPA (l₁ ++ l₂) e.id ≤ countPA db.registrations e.id := by
        rw [hl, countPA_append, countPA_append, countPA_cons]
        by_cases hc : r0.eventId = e.id ∧ (r0.status = APPROVED ∨ r0.status = PENDING)
        · rw [if_pos hc]
          omega
        · rw [if_neg hc]
          omega
      exact Nat.le_trans h0 hbound
    · rw [hs] at heq
      rw [heq]
      intro e he
      have hbound := hinv e he
      show countPA (setStatusOne (l₁ ++ l₂) w.id PENDING) e.id ≤ e.capacity
      have hwf : w ∈ (l₁ ++ l₂).filter
          (fun r => r.eventId = r0.eventId ∧ r.status = WAITLISTED) :=
        mem_sortByTime.1 (by rw [hs]; exact List.mem_cons_self _ _)
      have hwmem : w ∈ l₁ ++ l₂ := (List.mem_filter.1 hwf).1
      have hwp : w.eventId = r0.eventId ∧ w.status = WAITLISTED :=
        of_decide_eq_true (List.mem_filter.1 hwf).2
      have hd0 : IdsDistinct (l₁ ++ r0 :: l₂) := by
        rw [← hl]
        exact hids
      have hids1 : IdsDistinct (l₁ ++ l₂) :=
        idsDistinct_of_sublist
          (List.Sublist.append_left (List.Sublist.cons r0 (List.Sublist.refl l₂)) l₁) hd0
      obtain ⟨u₁, u₂, hu, hpre⟩ := idsDistinct_split hids1 hwmem
      have hset : setStatusOne (l₁ ++ l₂) w.id PENDING =
          u₁ ++ { w with status := PENDING } :: u₂ := by
        rw [hu]
        exact setStatusOne_append hpre rfl
      rw [hset, countPA_append, countPA_cons]
      have hproj1 : ({ w with status := PENDING } : Registration).eventId = w.eventId := rfl
      have hproj2 : ({ w with status := PENDING } : Registration).status = PENDING := rfl
      rw [hproj1, hproj2]
      have hdbsplit : countPA db.registrations e.id = countPA l₁ e.id +
          ((if r0.eventId = e.id ∧ (r0.status = APPROVED ∨ r0.status = PENDING)
            then 1 else 0) + countPA l₂ e.id) := by
        rw [hl, countPA_append, countPA_cons]
      have huSplit : countPA l₁ e.id + countPA l₂ e.id = countPA u₁ e.id +
          ((if w.eventId = e.id ∧ (w.status = APPROVED ∨ w.status = PENDING)
            then 1 else 0) + countPA u₂ e.id) := by
        have hx : countPA (l₁ ++ l₂) e.id = countPA (u₁ ++ w :: u₂) e.id := by rw [hu]
        rw [countPA_append, countPA_append, countPA_cons] at hx
        exact hx
      have hwzero : (if w.eventId = e.id ∧ (w.status = APPROVED ∨ w.status = PENDING)
          then 1 else 0) = 0 := by
        rw [if_neg]
        rintro ⟨-, hcon | hcon⟩ <;> (rw [hwp.2] at hcon; cases hcon)
      rw [hwzero] at huSplit
      by_cases heid : e.id = r0.eventId
      · have hwe : w.eventId = e.id := hwp.1.trans heid.symm
        rw [if_pos ⟨hwe, Or.inr rfl⟩]
        have hr0one : (if r0.eventId = e.id ∧ (r0.status = APPROVED ∨ r0.status = PENDING)
            then 1 else 0) = 1 := by
          rw [if_pos ⟨heid.symm, hst.elim (fun h => Or.inr h) (fun h => Or.inl h)⟩]
        rw [hdbsplit, hr0one] at hbound
        omega
      · have hwe : ¬ w.eventId = e.id := by
          intro hcon
          exact heid (hcon.symm.trans hwp.1)
        rw [if_neg (fun hcon => hwe hcon.1)]
        rw [hdbsplit] at hbound
        omega

/-- C1 witness: the amended preservation applied to a concrete store by an
add call and by a delete of a PENDING registration. -/
theorem c1_invariant_preservation_witness :
    CapacityInv (addRegistration
      { events := [sampleEvent "e1" 2 none],
        registrations := [sampleReg "p" "e1" PENDING 1, sampleReg "w" "e1" WAITLISTED 2],
        teams := [] } "x" (sampleInput "e1" 3)).1 ∧
    CapacityInv (deleteRegistration
      { events := [sampleEvent "e1" 2 none],
        registrations := [sampleReg "p" "e1" PENDING 1, sampleReg "w" "e1" WAITLISTED 2],
        teams := [] } "p").1 := by
  have h := c1_invariant_preservation
    { events := [sampleEvent "e1" 2 none],
      registrations := [sampleReg "p" "e1" PENDING 1, sampleReg "w" "e1" WAITLISTED 2],
      teams := [] } (by decide) (by decide)
  exact ⟨h.1 "x" (sampleInput "e1" 3),
    h.2 "p" (sampleReg "p" "e1" PENDING 1) rfl (Or.inl rfl) (by decide)⟩

/-! ### Claim C5 -/

/-- C5 counterexample: the claim says no registration whose status has left
WAITLISTED ever returns to it under the exposed operations; but
updateRegistrationStatus overwrites unconditionally, so passing WAITLISTED
moves an APPROVED registration back to WAITLISTED. -/
theorem c5_waitlist_return_counterexample :
    ((updateRegistrationStatus
        { events := [], registrations := [sampleReg "a" "e1" APPROVED 1], teams := [] }
        "a" WAITLISTED).registrations = [sampleReg "a" "e1" WAITLISTED 1]) ∧
    (sampleReg "a" "e1" APPROVED 1).status = APPROVED := by
  decide

/-- C5 (amended): under the step relation whose update steps carry only the
statuses the callers pass (APPROVED, REJECTED) and whose add steps use a
fresh id, a WAITLISTED registration in the post-state is either a WAITLISTED
pre-state registration (same id) or brand new; and, with distinct ids, a
WAITLISTED-to-PENDING transition of an existing registration happens only on
a deleteRegistration step. -/
theorem c5_waitlist_transitions (lab : OpLabel) (db db' : DB)
    (hstep : StepL lab db db') :
    (∀ r' ∈ db'.registrations, r'.status = WAITLISTED →
      (∃ r ∈ db.registrations, r.id = r'.id ∧ r.status = WAITLISTED) ∨
      (∀ r ∈ db.registrations, ¬ r.id = r'.id)) ∧
    (IdsDistinct db.registrations →
      ∀ r ∈ db.registrations, r.status = WAITLISTED →
      ∀ r' ∈ db'.registrations, r'.id = r.id → r'.status = PENDING →
      lab = OpLabel.delL) := by
  cases hstep with
  | add db newId reg hfresh =>
    rcases hf : db.events.find? (fun e => e.id = reg.eventId) with _ | event
    · rw [addRegistration_none hf]
      constructor
      · intro r' hr' hw
        exact Or.inl ⟨r', hr', rfl, hw⟩
      · intro hids r hr hWr r' hr' hid hP
        have hrr : r' = r := pairwise_key_unique hids hr' hr hid
        subst hrr
        rw [hWr] at hP
        exact RegistrationStatus.noConfusion hP
    · rw [addRegistration_eq hf]
      constructor
      · intro r' hr' hw
        rcases List.mem_append.1 hr' with h | h
        · exact Or.inl ⟨r', h, rfl, hw⟩
        · rcases List.mem_singleton.1 h with rfl
          exact Or.inr (fun r hr hcon => hfresh r hr hcon)
      · intro hids r hr hWr r' hr' hid hP
        rcases List.mem_append.1 hr' with h | h
        · have hrr : r' = r := pairwise_key_unique hids h hr hid
          subst hrr
          rw [hWr] at hP
          exact RegistrationStatus.noConfusion hP
        · rcases List.mem_singleton.1 h with rfl
          exact absurd hid.symm (hfresh r hr)
  | del db i =>
    obtain ⟨-, -, hcases⟩ := deleteRegistration_regs_cases db i
    constructor
    · intro r' hr' hw
      rcases hcases with hregs | ⟨nid, hregs⟩
      · rw [hregs] at hr'
        exact Or.inl ⟨r', mem_deleteOneReg hr', rfl, hw⟩
      · rw [hregs] at hr'
        rcases mem_setStatusOne hr' with h | ⟨x, hx, hxi, rfl⟩
        · exact Or.inl ⟨r', mem_deleteOneReg h, rfl, hw⟩
        · exact RegistrationStatus.noConfusion hw
    · intro _ _ _ _ _ _ _ _
      rfl
  | upd db i st hst =>
    constructor
    · intro r' hr' hw
      rcases mem_setStatusOne hr' with h | ⟨x, hx, hxi, rfl⟩
      · exact Or.inl ⟨r', h, rfl, hw⟩
      · have hw' : st = WAITLISTED := hw
        rcases hst with h1 | h1 <;> (rw [h1] at hw'; exact RegistrationStatus.noConfusion hw')
    · intro hids r hr hWr r' hr' hid hP
      rcases mem_setStatusOne hr' with h | ⟨x, hx, hxi, rfl⟩
      · have hrr : r' = r := pairwise_key_unique hids h hr hid
        subst hrr
        rw [hWr] at hP
        exact RegistrationStatus.noConfusion hP
      · have hP' : st = PENDING := hP
        rcases hst with h1 | h1 <;> (rw [h1] at hP'; exact RegistrationStatus.noConfusion hP')
  | mark db i t =>
    rcases markAttendance_cases db i t with hsame | ⟨-, -, hregs⟩
    · rw [hsame]
      constructor
      · intro r' hr' hw
        exact Or.inl ⟨r', hr', rfl, hw⟩
      · intro hids r hr hWr r' hr' hid hP
        have hrr : r' = r := pairwise_key_unique hids hr' hr hid
        subst hrr
        rw [hWr] at hP
        exact RegistrationStatus.noConfusion hP
    · constructor
      · intro r' hr' hw
        rw [hregs] at hr'
        rcases mem_setAttendedOne hr' with h | ⟨x, hx, hxi, rfl⟩
        · exact Or.inl ⟨r', h, rfl, hw⟩
        · exact Or.inl ⟨x, hx, rfl, hw⟩
      · intro hids r hr hWr r' hr' hid hP
        rw [hregs] at hr'
        rcases mem_setAttendedOne hr' with h | ⟨x, hx, hxi, rfl⟩
        · have hrr : r' = r := pairwise_key_unique hids h hr hid
          subst hrr
          rw [hWr] at hP
          exact RegistrationStatus.noConfusion hP
        · have hxr : x = r := pairwise_key_unique hids hx hr hid
          subst hxr
          have hP' : x.status = PENDING := hP
          rw [hWr] at hP'
          exact RegistrationStatus.noConfusion hP'

/-- C5 witness: the amended transition property on a concrete delete step
that promotes a WAITLISTED registration. -/
theorem c5_waitlist_transitions_witness :
    (∀ r' ∈ (deleteRegistration
        { events := [sampleEvent "e1" 1 none],
          registrations := [sampleReg "p" "e1" PENDING 1, sampleReg "w" "e1" WAITLISTED 3],
          teams := [] } "p").1.registrations,
      r'.status = WAITLISTED →
      (∃ r ∈ [sampleReg "p" "e1" PENDING 1, sampleReg "w" "e1" WAITLISTED 3],
        r.id = r'.id ∧ r.status = WAITLISTED) ∨
      (∀ r ∈ [sampleReg "p" "e1" PENDING 1, sampleReg "w" "e1" WAITLISTED 3],
        ¬ r.id = r'.id)) ∧
    OpLabel.delL = OpLabel.delL := by
  have h := c5_waitlist_transitions OpLabel.delL
    { events := [sampleEvent "e1" 1 none],
      registrations := [sampleReg "p" "e1" PENDING 1, sampleReg "w" "e1" WAITLISTED 3],
      teams := [] } _
    (StepL.del
      { events := [sampleEvent "e1" 1 none],
        registrations := [sampleReg "p" "e1" PENDING 1, sampleReg "w" "e1" WAITLISTED 3],
        teams := [] } "p")
  exact ⟨h.1, h.2 (by decide) (sampleReg "w" "e1" WAITLISTED 3) (by decide) rfl
    (sampleReg "w" "e1" PENDING 3) (by decide) rfl rfl⟩

/-! ### Claim C7 -/

/-- C7: with the earlier guards passing and the event's maxTeamSize a
nonzero m, the join-by-invite-code flow appends the joining member to the
team (and creates a registration) when the code resolves, the team belongs
to the target event, and the team has fewer than m members; when any of the
three checks fails the flow returns the store unchanged with no
registration.  The team lookup and the append are modelled from the spec
(their bodies are not under src); the checks are those of handleRegister in
src/App.tsx. -/
theorem c7_join_guards (db : DB) (user : User) (eventId : String)
    (now regTime : Nat) (answers : List (String × String)) (code newId : String)
    (ev : Event) (m : Nat)
    (hf : db.events.find? (fun e => e.id = eventId) = some ev)
    (hopen : ¬ ev.isRegistrationOpen = some false)
    (hdate : now < ev.date)
    (hdup : (db.registrations.find?
      (fun r => r.eventId = eventId ∧ r.participantEmail = user.email)).isSome = false)
    (hans : requiredAnswerMissing ev answers = false)
    (hcode : ¬ code.toList.all Char.isWhitespace = true)
    (hmts : ev.maxTeamSize = some m) (hm0 : ¬ m = 0) :
    ((∃ team, getTeamByInviteCode db code = some team ∧ team.eventId = eventId ∧
        team.members.length < m) →
      ∃ team, getTeamByInviteCode db code = some team ∧
        (handleRegister db user eventId now regTime answers
          (TeamChoice.joinByCode code) newId).1.teams =
          db.teams.map (fun t => if t.id = team.id then
            { t with members := t.members ++
              [{ userId := user.id, userName := user.name, email := user.email }] }
            else t) ∧
        ((handleRegister db user eventId now regTime answers
          (TeamChoice.joinByCode code) newId).2).isSome = true) ∧
    ((¬ ∃ team, getTeamByInviteCode db code = some team ∧ team.eventId = eventId ∧
        team.members.length < m) →
      handleRegister db user eventId now regTime answers
        (TeamChoice.joinByCode code) newId = (db, none)) := by
  have hd : ¬ ev.date ≤ now := Nat.not_le.2 hdate
  have heq := @handleRegister_join_eq db user eventId now regTime answers newId code ev
    hf hopen hd hdup hans
  rw [if_neg hcode] at heq
  have hjs : jsOrNat ev.maxTeamSize 99 = m := by
    rw [hmts]
    simp [jsOrNat, hm0]
  rcases ht : getTeamByInviteCode db code with _ | team
  · rw [ht] at heq
    constructor
    · rintro ⟨team, hteam, -⟩
      exact absurd hteam (by simp)
    · intro _
      exact heq
  · rw [ht] at heq
    have heq2 : handleRegister db user eventId now regTime answers
        (TeamChoice.joinByCode code) newId =
        (if ¬ team.eventId = eventId then (db, none)
         else if jsOrNat ev.maxTeamSize 99 ≤ team.members.length then (db, none)
         else
          addRegistration
            (joinTeam db team.id
              { userId := user.id, userName := user.name, email := user.email })
            newId
            { mkRegData user eventId
                (if ev.capacity ≤
                    (db.registrations.filter (fun r => r.eventId = eventId ∧
                      (r.status = APPROVED ∨ r.status = PENDING))).length
                  then WAITLISTED else PENDING) regTime answers with
              teamId := some team.id
              teamName := some team.name
              isTeamLeader := some false
              participationType := some "team" }) := heq
    by_cases hev' : team.eventId = eventId
    · by_cases hsz : team.members.length < m
      · have hsz' : ¬ (jsOrNat ev.maxTeamSize 99 ≤ team.members.length) := by
          rw [hjs]
          exact Nat.not_le.2 hsz
        rw [if_neg (not_not_intro hev'), if_neg hsz'] at heq2
        have hf1 : (joinTeam db team.id
            { userId := user.id, userName := user.name, email := user.email }).events.find?
            (fun e => e.id = eventId) = some ev := hf
        constructor
        · intro _
          refine ⟨team, rfl, ?_, ?_⟩
          · rw [heq2, addRegistration_eq hf1]
            rfl
          · rw [heq2, addRegistration_eq hf1]
            rfl
        · intro hno
          exact absurd ⟨team, rfl, hev', hsz⟩ hno
      · have hszle : jsOrNat ev.maxTeamSize 99 ≤ team.members.length := by
          rw [hjs]
          exact Nat.not_lt.1 hsz
        rw [if_neg (not_not_intro hev'), if_pos hszle] at heq2
        constructor
        · rintro ⟨team', hteam', -, hlt⟩
          rcases Option.some.inj hteam' with rfl
          exact absurd hlt hsz
        · intro _
          exact heq2
    · rw [if_pos hev'] at heq2
      constructor
      · rintro ⟨team', hteam', he', -⟩
        rcases Option.some.inj hteam' with rfl
        exact absurd he' hev'
      · intro _
        exact heq2

/-- C7 witness: the join flow on a concrete store appends the member and
creates a registration. -/
theorem c7_join_guards_witness :
    ∃ team, getTeamByInviteCode
        { events := [sampleEvent "e1" 5 (some 3)], registrations := [],
          teams := [sampleTeam "t1" "e1" "JOIN"
            [{ userId := "u9", userName := "Lea", email := "lea@example.com" }]] }
        "JOIN" = some team ∧
      (handleRegister
        { events := [sampleEvent "e1" 5 (some 3)], registrations := [],
          teams := [sampleTeam "t1" "e1" "JOIN"
            [{ userId := "u9", userName := "Lea", email := "lea@example.com" }]] }
        sampleUser "e1" 10 20 [] (TeamChoice.joinByCode "JOIN") "n").1.teams =
        ([sampleTeam "t1" "e1" "JOIN"
            [{ userId := "u9", userName := "Lea", email := "lea@example.com" }]].map
          (fun t => if t.id = team.id then
            { t with members := t.members ++
              [{ userId := sampleUser.id, userName := sampleUser.name,
                 email := sampleUser.email }] }
            else t)) ∧
      ((handleRegister
        { events := [sampleEvent "e1" 5 (some 3)], registrations := [],
          teams := [sampleTeam "t1" "e1" "JOIN"
            [{ userId := "u9", userName := "Lea", email := "lea@example.com" }]] }
        sampleUser "e1" 10 20 [] (TeamChoice.joinByCode "JOIN") "n").2).isSome = true :=
  (c7_join_guards
    { events := [sampleEvent "e1" 5 (some 3)], registrations := [],
      teams := [sampleTeam "t1" "e1" "JOIN"
        [{ userId := "u9", userName := "Lea", email := "lea@example.com" }]] }
    sampleUser "e1" 10 20 [] "JOIN" "n" (sampleEvent "e1" 5 (some 3)) 3
    rfl (by decide) (by decide) rfl rfl (by decide) rfl (by decide)).1
    ⟨sampleTeam "t1" "e1" "JOIN"
        [{ userId := "u9", userName := "Lea", email := "lea@example.com" }],
      rfl, rfl, by decide⟩

/-- C10 witness: the frame property at a concrete successful call; the
caller-supplied status REJECTED is ignored and the stored status is the
computed PENDING. -/
theorem c10_addRegistration_frame_witness :
    ((sampleInput "e1" 3).toReg "n" PENDING).id = "n" ∧
    ((sampleInput "e1" 3).toReg "n" PENDING).status = PENDING ∧
    (addRegistration
        { events := [sampleEvent "e1" 2 none], registrations := [], teams := [] }
        "n" { sampleInput "e1" 3 with status := REJECTED }) =
      ({ events := [sampleEvent "e1" 2 none],
         registrations := [(sampleInput "e1" 3).toReg "n" PENDING], teams := [] },
        some ((sampleInput "e1" 3).toReg "n" PENDING)) := by
  have h := c10_addRegistration_frame
    { events := [sampleEvent "e1" 2 none], registrations := [], teams := [] } "n"
    (sampleInput "e1" 3)
    { events := [sampleEvent "e1" 2 none],
      registrations := [(sampleInput "e1" 3).toReg "n" PENDING], teams := [] }
    ((sampleInput "e1" 3).toReg "n" PENDING) rfl
  obtain ⟨h1, -, -, -, -, -, -, -, -, -, -, -, -, -, -, -, -, h18⟩ := h
  exact ⟨h1, rfl, h18 REJECTED⟩

end EventHorizon
